import Mathlib

/-!
# redistore: a TTL-backed session store over a remote key-value service

A shallow embedding of `redistore.go` and `sessionstore.go`.

* The remote service and the client library (redigo) are the environment: a
  `Server` holds the keyspace and the list of commands it has received, a
  `Conn` is either an established connection or redigo's `errorConn`.
* Every store operation leases a connection (`Pool.Get`), runs one command
  (`Conn.Do`) and returns the reply together with the new server state.
* The outcome of dialling is an attribute of the pool: the health of the
  transport does not change between two calls. Time does not pass between two
  calls either, so no entry expires in between.
* Go's `error` is `Option Error` (`none` is `nil`), a `[]byte` result that may
  be `nil` is `Option Bytes` (`none` is the nil slice, `some []` the empty one).
-/

namespace Redistore

/-! ## Environment: errors, replies, commands, the remote service -/

/-- Go error values. `ErrNil` is `redis.ErrNil`, compared by identity in the source. -/
inductive Error where
  | ErrNil
  | other (msg : String)
  deriving DecidableEq, Repr

abbrev Byte := Fin 256

abbrev Bytes := List Byte

/-- Reply values handed back by `conn.Do` (redigo's reply values). -/
inductive Reply where
  | nil
  | status (s : String)
  | bulk (b : Bytes)
  | int (n : Int)
  deriving DecidableEq, Repr

/-- Commands the store sends over a connection. -/
inductive Cmd where
  | PING
  | GET (key : String)
  | SET (key : String) (val : Bytes)
  | SETEX (key : String) (age : Int) (val : Bytes)
  | DEL (key : String)
  deriving DecidableEq, Repr

/-- One stored string value with its time to live in seconds (`none`: no expiry). -/
structure Entry where
  val : Bytes
  ttl : Option Int
  deriving DecidableEq, Repr

/-- State of the remote key-value service: the answer it gives to PING, its
keyspace, and the commands received so far (oldest first). -/
structure Server where
  pong : Reply × Option Error
  db : String → Option Entry
  log : List Cmd

/-- What the network answers to connection set-up: `redis.Dial`, `AUTH`, `SELECT`. -/
structure Net where
  Dial : String → String → Option Error
  AUTH : String → Option Error
  SELECT : String → Option Error

/-- A leased connection: established, or redigo's `errorConn` carrying the
error that prevented the lease. -/
inductive Conn where
  | live
  | errorConn (err : Error)
  deriving DecidableEq, Repr

/-- The keyspace with `key` bound to `e` (or unbound for `none`). -/
def Server.put (srv : Server) (key : String) (e : Option Entry) : String → Option Entry :=
  fun k => if k = key then e else srv.db k

/-- Execution of one command by the service. SETEX rejects a non-positive
expiry; DEL answers the number of keys removed. -/
def Server.exec (srv : Server) : Cmd → (Reply × Option Error) × Server
  | .PING => (srv.pong, { srv with log := srv.log ++ [.PING] })
  | .GET key =>
    (match srv.db key with
      | none => (.nil, none)
      | some e => (.bulk e.val, none),
     { srv with log := srv.log ++ [.GET key] })
  | .SET key val =>
    ((.status "OK", none),
     { srv with db := srv.put key (some ⟨val, none⟩), log := srv.log ++ [.SET key val] })
  | .SETEX key age val =>
    if age ≤ 0 then
      ((.nil, some (.other "ERR invalid expire time in setex")),
       { srv with log := srv.log ++ [.SETEX key age val] })
    else
      ((.status "OK", none),
       { srv with db := srv.put key (some ⟨val, some age⟩),
                  log := srv.log ++ [.SETEX key age val] })
  | .DEL key =>
    ((.int (if (srv.db key).isSome then 1 else 0), none),
     { srv with db := srv.put key none, log := srv.log ++ [.DEL key] })

/-- Go `conn.Do(cmd, args...)`: an `errorConn` answers its error and sends nothing. -/
def Conn.Do (c : Conn) (srv : Server) (cmd : Cmd) : (Reply × Option Error) × Server :=
  match c with
  | .live => srv.exec cmd
  | .errorConn err => ((.nil, some err), srv)

/-- Go `conn.Err()`. -/
def Conn.Err : Conn → Option Error
  | .live => none
  | .errorConn err => some err

/-- Go `redis.Pool`: `Dial` is the outcome of the pool's dial function. -/
structure Pool where
  MaxIdle : Int
  IdleTimeout : Nat
  Dial : Except Error Conn

/-- Go `pool.Get()`: a failed dial is handed out as an `errorConn`. -/
def Pool.Get (p : Pool) : Conn :=
  match p.Dial with
  | .ok c => c
  | .error err => .errorConn err

/-- Go `[]byte(s)` for a Go string. -/
def stringBytes (s : String) : Bytes :=
  s.toUTF8.toList.map (fun u => Fin.ofNat u.toNat)

/-- Go `redis.Bytes(reply, err)`. -/
def redis.Bytes (reply : Reply) (err : Option Error) : Option Bytes × Option Error :=
  match err with
  | some e => (none, some e)
  | none =>
    match reply with
    | .bulk b => (some b, none)
    | .status s => (some (stringBytes s), none)
    | .nil => (none, some .ErrNil)
    | .int _ => (none, some (.other "redigo: unexpected type for Bytes"))

/-! ## Sessions, serializers, HTTP headers -/

/-- Go `sessions.Options` (only `MaxAge` is read by this package). -/
structure Options where
  MaxAge : Int
  deriving DecidableEq, Repr

/-- The session's value mapping. -/
abbrev Values := List (String × String)

/-- Go `sessions.Session`. -/
structure Session where
  ID : String
  Values : Values
  Options : Options
  IsNew : Bool
  name : String
  deriving DecidableEq, Repr

/-- Go `sessions.NewSession(store, name)`. -/
def sessions.NewSession (name : String) : Session :=
  { ID := "", Values := [], Options := ⟨0⟩, IsNew := false, name := name }

/-- The `SessionSerializer` interface. `Deserialize` updates the session it is
handed and may report an error. -/
structure SessionSerializer where
  Serialize : Session → Except Error Bytes
  Deserialize : Bytes → Session → Session × Option Error

/-- Go `http.Header`: a map from header name to its values. -/
abbrev Header := String → List String

/-- Go `h.Get(key)`: first value, or the empty string. -/
def Header.Get (h : Header) (key : String) : String :=
  (h key).headD ""

/-- Go `h.Set(key, value)`. -/
def Header.Set (h : Header) (key value : String) : Header :=
  fun k => if k = key then [value] else h k

/-- Go `http.Request` (only the header is read). -/
structure Request where
  Header : Header

/-! ## redistore.go -/

structure RediStore where
  Pool : Pool
  DefaultMaxAge : Int
  maxLength : Int
  keyPrefix : String
  serializer : SessionSerializer

/-- Go `dial(network, address, password)`. -/
def dial (net : Net) (network address password : String) : Except Error Conn :=
  match net.Dial network address with
  | some err => .error err
  | none =>
    if password ≠ "" then
      match net.AUTH password with
      | some err => .error err
      | none => .ok .live
    else .ok .live

/-- Go `dialWithDB(network, address, password, DB)`. -/
def dialWithDB (net : Net) (network address password DB : String) : Except Error Conn :=
  match dial net network address password with
  | .error err => .error err
  | .ok c =>
    match net.SELECT DB with
    | some err => .error err
    | none => .ok c

/-- Go `(s *RediStore) ping()`. -/
def RediStore.ping (s : RediStore) (srv : Server) : (Bool × Option Error) × Server :=
  let conn := s.Pool.Get
  match conn.Do srv .PING with
  | ((data, err), srv') =>
    if err ≠ none ∨ data = .nil then ((false, err), srv')
    else ((decide (data = .status "PONG"), none), srv')

/-- Go `NewRediStoreWithPool(pool, keyPairs...)`. -/
def NewRediStoreWithPool (gob : SessionSerializer) (pool : Pool) (_keyPairs : List Bytes)
    (srv : Server) : (RediStore × Option Error) × Server :=
  let s : RediStore :=
    { Pool := pool, DefaultMaxAge := 60 * 20, maxLength := 4096,
      keyPrefix := "session_", serializer := gob }
  match s.ping srv with
  | ((_, err), srv') => ((s, err), srv')

/-- Go `NewRediStore(size, network, address, password, keyPairs...)`. -/
def NewRediStore (gob : SessionSerializer) (net : Net) (size : Int)
    (network address password : String) (keyPairs : List Bytes) (srv : Server) :
    (RediStore × Option Error) × Server :=
  NewRediStoreWithPool gob
    { MaxIdle := size, IdleTimeout := 240, Dial := dial net network address password }
    keyPairs srv

/-- Go `NewRediStoreWithDB(size, network, address, password, DB, keyPairs...)`. -/
def NewRediStoreWithDB (gob : SessionSerializer) (net : Net) (size : Int)
    (network address password DB : String) (keyPairs : List Bytes) (srv : Server) :
    (RediStore × Option Error) × Server :=
  NewRediStoreWithPool gob
    { MaxIdle := size, IdleTimeout := 240, Dial := dialWithDB net network address password DB }
    keyPairs srv

/-- Go `(s *RediStore) StoreAs(ser)`. -/
def RediStore.StoreAs (json gob : SessionSerializer) (s : RediStore) (ser : String) : RediStore :=
  if ser = "JSON" then { s with serializer := json }
  else if ser = "BINARY" then { s with serializer := gob }
  else { s with serializer := gob }

/-- Go `(s *RediStore) Get(key)`. -/
def RediStore.Get (s : RediStore) (srv : Server) (key : String) :
    (Option Bytes × Option Error) × Server :=
  let conn := s.Pool.Get
  match conn.Do srv (.GET key) with
  | ((reply, err), srv') =>
    match redis.Bytes reply err with
    | (b, some e) => if e = .ErrNil then ((none, none), srv') else ((b, some e), srv')
    | (b, none) => ((b, none), srv')

/-- Go `(s *RediStore) Set(key, val)`. -/
def RediStore.Set (s : RediStore) (srv : Server) (key : String) (val : Bytes) :
    Option Error × Server :=
  let conn := s.Pool.Get
  match conn.Do srv (.SET key val) with
  | ((_, some err), srv') => (some err, srv')
  | ((_, none), srv') => (none, srv')

/-- Go `(s *RediStore) SetEx(key, val, age)`. -/
def RediStore.SetEx (s : RediStore) (srv : Server) (key : String) (val : Bytes) (age : Int) :
    Option Error × Server :=
  let conn := s.Pool.Get
  match conn.Err with
  | some err => (some err, srv)
  | none =>
    let age := if age = 0 then s.DefaultMaxAge else age
    match conn.Do srv (.SETEX key age val) with
    | ((_, err), srv') => (err, srv')

/-- Go `(s *RediStore) Del(key)`. -/
def RediStore.Del (s : RediStore) (srv : Server) (key : String) : Option Error × Server :=
  let conn := s.Pool.Get
  match conn.Do srv (.DEL key) with
  | ((_, some err), srv') => (some err, srv')
  | ((_, none), srv') => (none, srv')

/-! ## Identifier alphabet: `encoding/base32` and `strings.TrimRight` -/

/-- The standard base32 alphabet (`base32.StdEncoding`). -/
def encodeStd : List Char := "ABCDEFGHIJKLMNOPQRSTUVWXYZ234567".data

/-- The alphabet character for a 5-bit group (`enc.encode[b & 31]`). -/
def encodeChar (b : Nat) : Char := encodeStd.getD (b % 32) 'A'

/-- Go `base32.StdEncoding.Encode`: five source bytes become eight characters; a
final group of one to four bytes is padded with `=` to eight characters. -/
def Encode : List Byte → List Char
  | [] => []
  | [s0] =>
    [encodeChar (s0.val / 8), encodeChar (s0.val * 4),
     '=', '=', '=', '=', '=', '=']
  | [s0, s1] =>
    [encodeChar (s0.val / 8), encodeChar (s0.val * 4 + s1.val / 64),
     encodeChar (s1.val / 2), encodeChar (s1.val * 16),
     '=', '=', '=', '=']
  | [s0, s1, s2] =>
    [encodeChar (s0.val / 8), encodeChar (s0.val * 4 + s1.val / 64),
     encodeChar (s1.val / 2), encodeChar (s1.val * 16 + s2.val / 16),
     encodeChar (s2.val * 2),
     '=', '=', '=']
  | [s0, s1, s2, s3] =>
    [encodeChar (s0.val / 8), encodeChar (s0.val * 4 + s1.val / 64),
     encodeChar (s1.val / 2), encodeChar (s1.val * 16 + s2.val / 16),
     encodeChar (s2.val * 2 + s3.val / 128), encodeChar (s3.val / 4),
     encodeChar (s3.val * 8),
     '=']
  | s0 :: s1 :: s2 :: s3 :: s4 :: rest =>
    encodeChar (s0.val / 8) :: encodeChar (s0.val * 4 + s1.val / 64) ::
    encodeChar (s1.val / 2) :: encodeChar (s1.val * 16 + s2.val / 16) ::
    encodeChar (s2.val * 2 + s3.val / 128) :: encodeChar (s3.val / 4) ::
    encodeChar (s3.val * 8 + s4.val / 32) :: encodeChar s4.val :: Encode rest

/-- Go `base32.StdEncoding.EncodeToString`. -/
def EncodeToString (src : List Byte) : String := String.mk (Encode src)

/-- Go `strings.TrimRight(s, cutset)`: drops every trailing character that occurs in `cutset`. -/
def TrimRight (s cutset : String) : String :=
  String.mk (s.data.reverse.dropWhile (fun c => decide (c ∈ cutset.data))).reverse

/-! ## sessionstore.go -/

def SESSION_HEADER : String := "X-Core-Session"

def SESSION_PREFIX : String := "sess_"

def DEFAULT_MAX_AGE : Int := 60 * 20

structure SessionStore where
  store : RediStore
  Options : Options

/-- Go `randomBytes(size)`: a zeroed buffer of `size` bytes overwritten by what the
random source delivers (`rand`); the error of `rand.Read` is dropped, so a
short read leaves the tail zero. -/
def randomBytes (rand : List Byte) (size : Nat) : List Byte :=
  rand.take size ++ List.replicate (size - rand.length) 0

/-- Go `NewSessionStore(size, network, address, password, keyPairs...)`. -/
def NewSessionStore (gob : SessionSerializer) (net : Net) (size : Int)
    (network address password : String) (keyPairs : List Bytes) (srv : Server) :
    (Option SessionStore × Option Error) × Server :=
  match NewRediStore gob net size network address password keyPairs srv with
  | ((_, some err), srv') => ((none, some err), srv')
  | ((store, none), srv') =>
    ((some { store := store, Options := { MaxAge := DEFAULT_MAX_AGE } }, none), srv')

/-- Go `(ss *SessionStore) Load(session)`: the flag tells whether data was found. -/
def SessionStore.Load (ss : SessionStore) (srv : Server) (session : Session) :
    (Bool × Option Error) × Session × Server :=
  match ss.store.Get srv (SESSION_PREFIX ++ session.ID) with
  | ((_, some err), srv') => ((false, some err), session, srv')
  | ((none, none), srv') => ((false, none), session, srv')
  | ((some data, none), srv') =>
    match redis.Bytes (.bulk data) none with
    | (_, some err) => ((false, some err), session, srv')
    | (b, none) =>
      match ss.store.serializer.Deserialize (b.getD []) session with
      | (session', err) => ((true, err), session', srv')

/-- Go `(ss *SessionStore) New(r, name)`. -/
def SessionStore.New (ss : SessionStore) (srv : Server) (r : Request) (name : String) :
    (Session × Option Error) × Server :=
  let session := sessions.NewSession name
  let session := { session with Options := ss.Options }
  let session := { session with IsNew := true }
  let session := { session with ID := r.Header.Get SESSION_HEADER }
  match ss.Load srv session with
  | ((ok, err), session, srv') =>
    (({ session with IsNew := !(decide (err = none) && ok) }, err), srv')

/-- The session `New` has built when it calls `Load`: a new session carrying
the store's options, marked new, with the identifier read from the request. -/
def SessionStore.fresh (ss : SessionStore) (r : Request) (name : String) : Session :=
  { ID := r.Header.Get SESSION_HEADER, Values := [], Options := ss.Options,
    IsNew := true, name := name }

/-- The session `Save` serializes when the max-age is not negative: an empty
identifier has been replaced by a generated one. -/
def SessionStore.issued (rand : List Byte) (session : Session) : Session :=
  if session.ID = "" then
    { session with ID := TrimRight (EncodeToString (randomBytes rand 12)) "=" }
  else session

/-- Go `(ss *SessionStore) Save(r, w, session)`: returns the session as left by the
call, the response header, the error and the new server state. `rand` is what
the random source delivers should an identifier be generated. -/
def SessionStore.Save (ss : SessionStore) (rand : List Byte) (srv : Server) (_r : Request)
    (w : Header) (session : Session) : (Session × Header × Option Error) × Server :=
  if session.Options.MaxAge < 0 then
    match ss.store.Del srv session.ID with
    | (some err, srv') => ((session, w, some err), srv')
    | (none, srv') => ((session, w, none), srv')
  else
    let session :=
      if session.ID = "" then
        { session with ID := TrimRight (EncodeToString (randomBytes rand 12)) "=" }
      else session
    match ss.store.serializer.Serialize session with
    | .error err => ((session, w, some err), srv)
    | .ok data =>
      match ss.store.SetEx srv (SESSION_PREFIX ++ session.ID) data session.Options.MaxAge with
      | (some err, srv') => ((session, w, some err), srv')
      | (none, srv') => ((session, w.Set SESSION_HEADER session.ID, none), srv')

/-- Go `(ss *SessionStore) MaxAge(age)`. -/
def SessionStore.MaxAge (ss : SessionStore) (age : Int) : SessionStore :=
  { ss with store := { ss.store with DefaultMaxAge := age } }

/-! ## Concrete stores, sessions and serializers used to exercise the definitions -/

/-- Bytes of an ASCII string. -/
def asciiBytes (s : String) : Bytes := s.data.map (fun c => Fin.ofNat c.toNat)

/-- Text of a byte string. -/
def asciiString (b : Bytes) : String := String.mk (b.map (fun x => Char.ofNat x.val))

/-- Splits a byte string into its zero-terminated fields; `none` when the last
field lacks its terminator. -/
def splitFields : Bytes → Bytes → Option (List Bytes)
  | [], [] => some []
  | [], _ :: _ => none
  | b :: rest, cur =>
    if b = 0 then (splitFields rest []).map (fun fs => cur.reverse :: fs)
    else splitFields rest (b :: cur)

/-- Pairs up consecutive fields; `none` for an odd number of fields. -/
def pairFields : List Bytes → Option Values
  | [] => some []
  | [_] => none
  | k :: v :: rest => (pairFields rest).map (fun vs => (asciiString k, asciiString v) :: vs)

/-- A small text serializer: every key and every value is written as its bytes
followed by a zero byte. -/
def textSerializer : SessionSerializer where
  Serialize := fun s =>
    .ok (s.Values.flatMap (fun p => asciiBytes p.1 ++ [0] ++ asciiBytes p.2 ++ [0]))
  Deserialize := fun b s =>
    match (splitFields b []).bind pairFields with
    | some vs => ({ s with Values := vs }, none)
    | none => (s, some (.other "corrupt session data"))

/-- A pool whose dial succeeds. -/
def livePool : Pool := { MaxIdle := 10, IdleTimeout := 240, Dial := .ok .live }

/-- A pool whose dial fails. -/
def deadPool : Pool :=
  { MaxIdle := 10, IdleTimeout := 240, Dial := .error (.other "dial tcp: connection refused") }

/-- A store whose pool cannot dial. -/
def deadStore : RediStore :=
  { Pool := deadPool, DefaultMaxAge := 60 * 20, maxLength := 4096,
    keyPrefix := "session_", serializer := textSerializer }

/-- A store as built by `NewRediStoreWithPool` over `livePool`. -/
def liveStore : RediStore :=
  { Pool := livePool, DefaultMaxAge := 60 * 20, maxLength := 4096,
    keyPrefix := "session_", serializer := textSerializer }

/-- A session store as built by `NewSessionStore`. -/
def liveSessions : SessionStore :=
  { store := liveStore, Options := { MaxAge := DEFAULT_MAX_AGE } }

/-- A service with an empty keyspace that answers PONG. -/
def emptyServer : Server :=
  { pong := (.status "PONG", none), db := fun _ => none, log := [] }

/-- A service holding the session `user=alice` under `sess_abc`. -/
def aliceServer : Server :=
  { pong := (.status "PONG", none),
    db := fun k =>
      if k = "sess_abc" then
        some ⟨asciiBytes "user" ++ [0] ++ asciiBytes "alice" ++ [0], some 1200⟩
      else none,
    log := [] }

/-- A service holding bytes under `sess_abc` that the text serializer rejects. -/
def corruptServer : Server :=
  { pong := (.status "PONG", none),
    db := fun k => if k = "sess_abc" then some ⟨[7, 7], some 1200⟩ else none,
    log := [] }

/-- A service holding a well-formed session under the bare prefix `sess_`. -/
def bareKeyServer : Server :=
  { pong := (.status "PONG", none),
    db := fun k =>
      if k = "sess_" then
        some ⟨asciiBytes "user" ++ [0] ++ asciiBytes "mallory" ++ [0], none⟩
      else none,
    log := [] }

/-- A service that answers PING with a reply other than PONG and no error
(as a connection inside a transaction does). -/
def queuedServer : Server :=
  { pong := (.status "QUEUED", none), db := fun _ => none, log := [] }

/-- A network on which every endpoint can be dialled. -/
def openNet : Net := { Dial := fun _ _ => none, AUTH := fun _ => none, SELECT := fun _ => none }

/-- A network on which no endpoint can be dialled. -/
def closedNet : Net :=
  { Dial := fun _ _ => some (.other "dial tcp: connection refused"),
    AUTH := fun _ => none, SELECT := fun _ => none }

/-- A request presenting the identifier generated from the bytes 1 to 12. -/
def issuedRequest : Request :=
  { Header := fun k => if k = "X-Core-Session" then ["AEBAGBAFAYDQQCIKBMGA"] else [] }

/-- A request without headers. -/
def bareRequest : Request := { Header := fun _ => [] }

/-- A request presenting the identifier `abc`. -/
def abcRequest : Request :=
  { Header := fun k => if k = "X-Core-Session" then ["abc"] else [] }

/-- A response header with nothing set. -/
def noHeader : Header := fun _ => []

/-- The session `abc` holding `user=alice`, marked for termination. -/
def endedSession : Session :=
  { ID := "abc", Values := [("user", "alice")], Options := { MaxAge := -1 },
    IsNew := false, name := "s" }

/-- A fresh session holding `user=alice` with a 1200 second lifetime. -/
def aliceSession : Session :=
  { ID := "", Values := [("user", "alice")], Options := { MaxAge := 1200 },
    IsNew := true, name := "s" }

/-! ## Operations on a live and on a failed connection -/

theorem Conn.Err_eq_none {c : Conn} (h : c.Err = none) : c = .live := by
  cases c with
  | live => rfl
  | errorConn e => simp [Conn.Err] at h

theorem RediStore.Get_live (s : RediStore) (srv : Server) (key : String)
    (h : s.Pool.Get = .live) :
    s.Get srv key =
      (((srv.db key).map Entry.val, none), { srv with log := srv.log ++ [.GET key] }) := by
  unfold RediStore.Get
  rw [h]
  cases hk : srv.db key <;> simp [Conn.Do, Server.exec, hk, redis.Bytes]

theorem RediStore.Set_live (s : RediStore) (srv : Server) (key : String) (val : Bytes)
    (h : s.Pool.Get = .live) :
    s.Set srv key val =
      (none, { srv with db := srv.put key (some ⟨val, none⟩),
                        log := srv.log ++ [.SET key val] }) := by
  unfold RediStore.Set
  rw [h]
  simp [Conn.Do, Server.exec]

theorem RediStore.Set_errorConn (s : RediStore) (srv : Server) (key : String) (val : Bytes)
    (e : Error) (h : s.Pool.Get = .errorConn e) :
    s.Set srv key val = (some e, srv) := by
  unfold RediStore.Set
  rw [h]
  simp [Conn.Do]

theorem RediStore.Del_live (s : RediStore) (srv : Server) (key : String)
    (h : s.Pool.Get = .live) :
    s.Del srv key =
      (none, { srv with db := srv.put key none, log := srv.log ++ [.DEL key] }) := by
  unfold RediStore.Del
  rw [h]
  simp [Conn.Do, Server.exec]

theorem RediStore.Del_errorConn (s : RediStore) (srv : Server) (key : String)
    (e : Error) (h : s.Pool.Get = .errorConn e) :
    s.Del srv key = (some e, srv) := by
  unfold RediStore.Del
  rw [h]
  simp [Conn.Do]

theorem RediStore.SetEx_live (s : RediStore) (srv : Server) (key : String) (val : Bytes)
    (age : Int) (h : s.Pool.Get = .live) :
    s.SetEx srv key val age =
      ((srv.exec (.SETEX key (if age = 0 then s.DefaultMaxAge else age) val)).1.2,
       (srv.exec (.SETEX key (if age = 0 then s.DefaultMaxAge else age) val)).2) := by
  unfold RediStore.SetEx
  rw [h]
  simp [Conn.Do, Conn.Err]

theorem RediStore.SetEx_errorConn (s : RediStore) (srv : Server) (key : String) (val : Bytes)
    (age : Int) (e : Error) (h : s.Pool.Get = .errorConn e) :
    s.SetEx srv key val age = (some e, srv) := by
  unfold RediStore.SetEx
  rw [h]
  simp [Conn.Err]

theorem Server.exec_SETEX_pos (srv : Server) (key : String) (age : Int) (val : Bytes)
    (h : 0 < age) :
    srv.exec (.SETEX key age val) =
      ((.status "OK", none),
       { srv with db := srv.put key (some ⟨val, some age⟩),
                  log := srv.log ++ [.SETEX key age val] }) := by
  have : ¬ age ≤ 0 := by omega
  simp [Server.exec, this]

theorem Server.exec_SETEX_nonpos (srv : Server) (key : String) (age : Int) (val : Bytes)
    (h : age ≤ 0) :
    srv.exec (.SETEX key age val) =
      ((.nil, some (.other "ERR invalid expire time in setex")),
       { srv with log := srv.log ++ [.SETEX key age val] }) := by
  simp [Server.exec, h]

/-- A `Set` that reports no error ran on a live connection. -/
theorem RediStore.Set_ok_live (s : RediStore) (srv : Server) (key : String) (val : Bytes)
    (h : (s.Set srv key val).1 = none) : s.Pool.Get = .live := by
  cases hc : s.Pool.Get with
  | live => rfl
  | errorConn e => rw [RediStore.Set_errorConn s srv key val e hc] at h; simp at h

/-- A `Del` that reports no error ran on a live connection. -/
theorem RediStore.Del_ok_live (s : RediStore) (srv : Server) (key : String)
    (h : (s.Del srv key).1 = none) : s.Pool.Get = .live := by
  cases hc : s.Pool.Get with
  | live => rfl
  | errorConn e => rw [RediStore.Del_errorConn s srv key e hc] at h; simp at h

/-- A `SetEx` that reports no error ran on a live connection with a positive expiry. -/
theorem RediStore.SetEx_ok (s : RediStore) (srv : Server) (key : String) (val : Bytes)
    (age : Int) (h : (s.SetEx srv key val age).1 = none) :
    s.Pool.Get = .live ∧ 0 < (if age = 0 then s.DefaultMaxAge else age) := by
  cases hc : s.Pool.Get with
  | errorConn e => rw [RediStore.SetEx_errorConn s srv key val age e hc] at h; simp at h
  | live =>
    refine ⟨rfl, ?_⟩
    by_contra hn
    rw [RediStore.SetEx_live s srv key val age hc,
      Server.exec_SETEX_nonpos srv key _ val (by omega)] at h
    simp at h

/-! ## C4: Set then Get -/

/-- C4: after a successful `Set(k, v)`, `Get(k)` returns exactly `v` with no
error, a result different from the absence sentinel that `Get` returns for a
key holding no value (also when `v` is empty), and every other key keeps its value. -/
theorem Set_Get_roundtrip (s : RediStore) (srv : Server) (k : String) (v : Bytes)
    (hset : (s.Set srv k v).1 = none) :
    (s.Get (s.Set srv k v).2 k).1 = (some v, none) ∧
    (s.Get (s.Set srv k v).2 k).1 ≠ (none, none) ∧
    (∀ k', (s.Set srv k v).2.db k' = none →
      (s.Get (s.Set srv k v).2 k').1 = (none, none)) ∧
    (∀ k', k' ≠ k →
      (s.Set srv k v).2.db k' = srv.db k' ∧
      (s.Get (s.Set srv k v).2 k').1 = (s.Get srv k').1) := by
  have hl := RediStore.Set_ok_live s srv k v hset
  rw [RediStore.Set_live s srv k v hl]
  refine ⟨?_, ?_, ?_, ?_⟩
  · rw [RediStore.Get_live _ _ _ hl]; simp [Server.put]
  · rw [RediStore.Get_live _ _ _ hl]; simp [Server.put]
  · intro k' hk'
    rw [RediStore.Get_live _ _ _ hl]
    simp only at hk'
    simp [hk']
  · intro k' hne
    rw [RediStore.Get_live _ _ _ hl, RediStore.Get_live _ _ _ hl]
    simp [Server.put, hne]

/-- C4 at a concrete store: an empty payload written under `k` is read back as
the empty payload, not as absence. -/
theorem Set_Get_roundtrip_witness :
    (liveStore.Set emptyServer "k" []).1 = none ∧
    (liveStore.Get (liveStore.Set emptyServer "k" []).2 "k").1 = (some [], none) ∧
    (liveStore.Get (liveStore.Set emptyServer "k" []).2 "other").1 = (none, none) :=
  ⟨by decide,
   (Set_Get_roundtrip liveStore emptyServer "k" [] (by decide)).1,
   (Set_Get_roundtrip liveStore emptyServer "k" [] (by decide)).2.2.1 "other" (by decide)⟩

/-! ## C5: Del is idempotent -/

/-- C5: on a connection that reports no error, `Del(k)` returns no error
whether or not `k` is present, so does a second `Del(k)`, `Get(k)` after either
returns the absence sentinel with no error, and so does `Get` on any key that
holds no value. -/
theorem Del_idempotent (s : RediStore) (srv : Server) (k : String)
    (hconn : s.Pool.Get.Err = none) :
    (s.Del srv k).1 = none ∧
    (s.Del (s.Del srv k).2 k).1 = none ∧
    (s.Get (s.Del srv k).2 k).1 = (none, none) ∧
    (s.Get (s.Del (s.Del srv k).2 k).2 k).1 = (none, none) ∧
    (∀ k', srv.db k' = none → (s.Get srv k').1 = (none, none)) := by
  have hl := Conn.Err_eq_none hconn
  refine ⟨?_, ?_, ?_, ?_, ?_⟩
  · rw [RediStore.Del_live _ _ _ hl]
  · rw [RediStore.Del_live _ _ _ hl, RediStore.Del_live _ _ _ hl]
  · rw [RediStore.Del_live _ _ _ hl, RediStore.Get_live _ _ _ hl]; simp [Server.put]
  · rw [RediStore.Del_live _ _ _ hl, RediStore.Del_live _ _ _ hl, RediStore.Get_live _ _ _ hl]
    simp [Server.put]
  · intro k' hk'; rw [RediStore.Get_live _ _ _ hl]; simp [hk']

/-- C5 at concrete stores: deleting the present key `sess_abc` and deleting a
key of an empty store. -/
theorem Del_idempotent_witness :
    liveStore.Pool.Get.Err = none ∧
    (liveStore.Del aliceServer "sess_abc").1 = none ∧
    (liveStore.Get (liveStore.Del aliceServer "sess_abc").2 "sess_abc").1 = (none, none) ∧
    (liveStore.Del emptyServer "sess_abc").1 = none :=
  ⟨by decide,
   (Del_idempotent liveStore aliceServer "sess_abc" (by decide)).1,
   (Del_idempotent liveStore aliceServer "sess_abc" (by decide)).2.2.1,
   (Del_idempotent liveStore emptyServer "sess_abc" (by decide)).1⟩

/-! ## C6: expiry defaulting -/

/-- C6 fails as stated: after `SessionStore.MaxAge 0` the configured default
is 0, `SetEx("k", [1], 0)` on a live connection sends `SETEX k 0 [1]`, the
service refuses it and `k` is not stored; and on a pool whose dial fails
`SetEx` returns the dial error without sending any command. -/
theorem SetEx_zero_default_not_stored :
    (liveSessions.MaxAge 0).store.DefaultMaxAge = 0 ∧
    (liveSessions.MaxAge 0).store.Pool.Get.Err = none ∧
    ((liveSessions.MaxAge 0).store.SetEx emptyServer "k" [1] 0).2.log =
      [.SETEX "k" 0 [1]] ∧
    ((liveSessions.MaxAge 0).store.SetEx emptyServer "k" [1] 0).1 =
      some (.other "ERR invalid expire time in setex") ∧
    ((liveSessions.MaxAge 0).store.SetEx emptyServer "k" [1] 0).2.db "k" = none ∧
    (deadStore.SetEx emptyServer "k" [1] 0).1 =
      some (.other "dial tcp: connection refused") ∧
    (deadStore.SetEx emptyServer "k" [1] 0).2.log = [] := by
  decide

/-- C6 (amended): on a connection that reports no error, `SetEx(k, v, age)`
sends exactly one command, the write-with-expiry `SETEX k ttl v`, whose expiry
is `DefaultMaxAge` when `age = 0` and `age` otherwise; the call succeeds
exactly when that expiry is positive, then `k` holds `v` with that expiry, and
otherwise the keyspace is left as it was. So `SetEx(k, v, 0)` stores `k` with
the configured default whenever that default is positive. On a connection
whose lease failed `SetEx` returns the lease error, sends no command and
leaves the service as it was. The default is 1200 on a newly built store and
is whatever `SessionStore.MaxAge` last set. -/
theorem SetEx_expiry_default (s : RediStore) (srv : Server) (k : String) (v : Bytes)
    (age : Int) :
    (s.Pool.Get.Err = none →
      (s.SetEx srv k v age).2.log =
        srv.log ++ [.SETEX k (if age = 0 then s.DefaultMaxAge else age) v] ∧
      ((s.SetEx srv k v age).1 = none ↔ 0 < (if age = 0 then s.DefaultMaxAge else age)) ∧
      (0 < (if age = 0 then s.DefaultMaxAge else age) →
        (s.SetEx srv k v age).2.db k =
          some ⟨v, some (if age = 0 then s.DefaultMaxAge else age)⟩) ∧
      ((if age = 0 then s.DefaultMaxAge else age) ≤ 0 →
        (s.SetEx srv k v age).2.db = srv.db) ∧
      (0 < s.DefaultMaxAge →
        (s.SetEx srv k v 0).1 = none ∧
        (s.SetEx srv k v 0).2.db k = some ⟨v, some s.DefaultMaxAge⟩ ∧
        (s.SetEx srv k v 0).2.log = srv.log ++ [.SETEX k s.DefaultMaxAge v])) ∧
    (∀ e, s.Pool.Get.Err = some e →
      (s.SetEx srv k v age).1 = some e ∧
      (s.SetEx srv k v age).2.log = srv.log ∧
      (s.SetEx srv k v age).2.db = srv.db) ∧
    (∀ gob pool keyPairs srv0,
      (NewRediStoreWithPool gob pool keyPairs srv0).1.1.DefaultMaxAge = 1200) ∧
    (∀ (ss : SessionStore) (a : Int), (ss.MaxAge a).store.DefaultMaxAge = a) := by
  refine ⟨?_, ?_, ?_, ?_⟩
  · intro hconn
    have hl := Conn.Err_eq_none hconn
    have key : ∀ a : Int, 0 < (if a = 0 then s.DefaultMaxAge else a) →
        (s.SetEx srv k v a).1 = none ∧
        (s.SetEx srv k v a).2.db k =
          some ⟨v, some (if a = 0 then s.DefaultMaxAge else a)⟩ ∧
        (s.SetEx srv k v a).2.log =
          srv.log ++ [.SETEX k (if a = 0 then s.DefaultMaxAge else a) v] := by
      intro a ha
      rw [RediStore.SetEx_live s srv k v a hl, Server.exec_SETEX_pos srv k _ v ha]
      simp [Server.put]
    refine ⟨?_, ⟨?_, ?_⟩, ?_, ?_, ?_⟩
    · by_cases hp : 0 < (if age = 0 then s.DefaultMaxAge else age)
      · exact (key age hp).2.2
      · rw [RediStore.SetEx_live s srv k v age hl,
          Server.exec_SETEX_nonpos srv k _ v (by omega)]
    · intro h; exact (RediStore.SetEx_ok s srv k v age h).2
    · intro h; exact (key age h).1
    · intro h; exact (key age h).2.1
    · intro h
      rw [RediStore.SetEx_live s srv k v age hl, Server.exec_SETEX_nonpos srv k _ v h]
    · intro h
      have := key 0 (by simpa using h)
      simpa using this
  · intro e he
    have hc : s.Pool.Get = .errorConn e := by
      cases hg : s.Pool.Get with
      | live => rw [hg] at he; simp [Conn.Err] at he
      | errorConn e' =>
        rw [hg] at he
        simp only [Conn.Err, Option.some.injEq] at he
        rw [he]
    rw [RediStore.SetEx_errorConn s srv k v age e hc]
    exact ⟨rfl, rfl, rfl⟩
  · intro gob pool keyPairs srv0
    simp [NewRediStoreWithPool]
  · intro ss a; rfl

/-- C6 (amended) at concrete stores: `SetEx("k", [1], 0)` on the default store
sends the single command `SETEX k 1200 [1]` and stores `k` with expiry 1200;
on the store whose dial fails it returns the dial error and sends nothing. -/
theorem SetEx_expiry_default_witness :
    liveStore.Pool.Get.Err = none ∧
    (liveStore.SetEx emptyServer "k" [1] 0).2.log = [.SETEX "k" 1200 [1]] ∧
    (liveStore.SetEx emptyServer "k" [1] 0).2.db "k" = some ⟨[1], some 1200⟩ ∧
    (deadStore.SetEx emptyServer "k" [1] 0).2.log = [] :=
  ⟨by decide,
   ((SetEx_expiry_default liveStore emptyServer "k" [1] 0).1 (by decide)).1,
   (((SetEx_expiry_default liveStore emptyServer "k" [1] 0).1 (by decide)).2.2.2.2
      (by decide)).2.1,
   ((SetEx_expiry_default deadStore emptyServer "k" [1] 0).2.1
      (.other "dial tcp: connection refused") (by decide)).2.1⟩

/-! ## C1: saving a session with a negative max-age -/

/-- The prefixed key of a session differs from its bare identifier. -/
theorem prefixed_key_ne (id : String) : SESSION_PREFIX ++ id ≠ id := by
  intro h
  have := congrArg String.length h
  simp [SESSION_PREFIX, String.length_append] at this
  have h5 : "sess_".length = 5 := by decide
  omega

/-- With a negative max-age `Save` sends `DEL` for the bare identifier: the
response header is left as it was, and after a successful call every key other
than the bare identifier, the prefixed key included, holds what it held before. -/
theorem Save_negative_maxage (ss : SessionStore) (rand : List Byte) (srv : Server)
    (r : Request) (w : Header) (S : Session) (hneg : S.Options.MaxAge < 0) :
    (ss.Save rand srv r w S).1.2.1 = w ∧
    ((ss.Save rand srv r w S).1.2.2 = none →
      (ss.Save rand srv r w S).2.log = srv.log ++ [.DEL S.ID] ∧
      (∀ k, k ≠ S.ID → (ss.Save rand srv r w S).2.db k = srv.db k) ∧
      (ss.Save rand srv r w S).2.db (SESSION_PREFIX ++ S.ID) =
        srv.db (SESSION_PREFIX ++ S.ID)) := by
  unfold SessionStore.Save
  rw [if_pos hneg]
  cases hc : ss.store.Pool.Get with
  | errorConn e => rw [RediStore.Del_errorConn _ _ _ e hc]; simp
  | live =>
    rw [RediStore.Del_live _ _ _ hc]
    refine ⟨rfl, fun _ => ⟨rfl, ?_, ?_⟩⟩
    · intro k hk; simp [Server.put, hk]
    · simp [Server.put, prefixed_key_ne]

/-- C1 (code evaluated at the failing input): the session `abc` with max-age
-1 is saved against a store holding an entry under `sess_abc`; `Save` succeeds
and sets no header, but it sent `DEL abc`, and `Get("sess_abc")` still returns
the stored bytes instead of the absence sentinel. -/
theorem terminated_session_entry_survives :
    endedSession.ID ≠ "" ∧ endedSession.Options.MaxAge < 0 ∧
    (aliceServer.db ("sess_" ++ endedSession.ID)).isSome = true ∧
    (liveSessions.Save [] aliceServer bareRequest noHeader endedSession).1.2.2 = none ∧
    (liveSessions.Save [] aliceServer bareRequest noHeader endedSession).1.2.1.Get
      SESSION_HEADER = "" ∧
    (liveSessions.Save [] aliceServer bareRequest noHeader endedSession).2.log =
      [.DEL "abc"] ∧
    (liveStore.Get (liveSessions.Save [] aliceServer bareRequest noHeader endedSession).2
      ("sess_" ++ endedSession.ID)).1 =
      (some [117, 115, 101, 114, 0, 97, 108, 105, 99, 101, 0], none) := by
  decide

/-! ## Loading a session -/

theorem SessionStore.New_eq (ss : SessionStore) (srv : Server) (r : Request) (name : String) :
    ss.New srv r name =
      (({ (ss.Load srv (ss.fresh r name)).2.1 with
            IsNew := !(decide ((ss.Load srv (ss.fresh r name)).1.2 = none) &&
                       (ss.Load srv (ss.fresh r name)).1.1) },
        (ss.Load srv (ss.fresh r name)).1.2),
       (ss.Load srv (ss.fresh r name)).2.2) := rfl

/-- Go `Load` when the lookup yields no bytes (absence or a failed lookup). -/
theorem SessionStore.Load_none (ss : SessionStore) (srv : Server) (session : Session)
    (h : (ss.store.Get srv (SESSION_PREFIX ++ session.ID)).1.1 = none) :
    ss.Load srv session =
      ((false, (ss.store.Get srv (SESSION_PREFIX ++ session.ID)).1.2), session,
       (ss.store.Get srv (SESSION_PREFIX ++ session.ID)).2) := by
  unfold SessionStore.Load
  rcases hg : ss.store.Get srv (SESSION_PREFIX ++ session.ID) with ⟨⟨b, e⟩, srv'⟩
  rw [hg] at h
  simp only at h
  subst h
  cases e <;> rfl

/-- Go `Load` when the lookup yields bytes. -/
theorem SessionStore.Load_some (ss : SessionStore) (srv : Server) (session : Session)
    (b : Bytes) (h : (ss.store.Get srv (SESSION_PREFIX ++ session.ID)).1 = (some b, none)) :
    ss.Load srv session =
      ((true, (ss.store.serializer.Deserialize b session).2),
       (ss.store.serializer.Deserialize b session).1,
       (ss.store.Get srv (SESSION_PREFIX ++ session.ID)).2) := by
  unfold SessionStore.Load
  rcases hg : ss.store.Get srv (SESSION_PREFIX ++ session.ID) with ⟨⟨b', e⟩, srv'⟩
  rw [hg] at h
  simp only [Prod.mk.injEq] at h
  obtain ⟨hb, he⟩ := h
  subst hb he
  simp [redis.Bytes]

/-- The lookup of `Get` yields bytes only without an error. -/
theorem RediStore.Get_some_no_error (s : RediStore) (srv : Server) (key : String) (b : Bytes)
    (h : (s.Get srv key).1.1 = some b) : (s.Get srv key).1 = (some b, none) := by
  cases hc : s.Pool.Get with
  | live =>
    rw [RediStore.Get_live s srv key hc] at h ⊢
    simp only at h
    simp [h]
  | errorConn e =>
    unfold RediStore.Get at h
    rw [hc] at h
    by_cases he : e = .ErrNil <;> simp [Conn.Do, redis.Bytes, he] at h

/-! ## C9: the IsNew rule -/

/-- C9: the session returned by `New` has `IsNew = false` exactly when `Load`
returned no error and found data under `"sess_" ++ identifier`, and `New`
returns the error of `Load`. On a connection that reports no error `Get`
yields the bytes held under the key, or the absence sentinel when the key is
absent. When the key is absent (`Get` yields the absence sentinel) `New` returns `IsNew = true` and no error; when the key is present
and `Deserialize` succeeds on its bytes `New` returns `IsNew = false` and no error. -/
theorem New_IsNew_rule (ss : SessionStore) (srv : Server) (r : Request) (name : String) :
    ((ss.New srv r name).1.1.IsNew = false ↔
      ((ss.Load srv (ss.fresh r name)).1.2 = none ∧
       (ss.Load srv (ss.fresh r name)).1.1 = true)) ∧
    (ss.New srv r name).1.2 = (ss.Load srv (ss.fresh r name)).1.2 ∧
    (ss.store.Pool.Get.Err = none →
      (ss.store.Get srv (SESSION_PREFIX ++ r.Header.Get SESSION_HEADER)).1 =
        ((srv.db (SESSION_PREFIX ++ r.Header.Get SESSION_HEADER)).map Entry.val, none)) ∧
    ((ss.store.Get srv (SESSION_PREFIX ++ r.Header.Get SESSION_HEADER)).1 = (none, none) →
      (ss.New srv r name).1.1.IsNew = true ∧ (ss.New srv r name).1.2 = none) ∧
    (∀ b, (ss.store.Get srv (SESSION_PREFIX ++ r.Header.Get SESSION_HEADER)).1 =
        (some b, none) →
      (ss.store.serializer.Deserialize b (ss.fresh r name)).2 = none →
      (ss.New srv r name).1.1.IsNew = false ∧ (ss.New srv r name).1.2 = none) := by
  rw [SessionStore.New_eq]
  refine ⟨?_, rfl, ?_, ?_, ?_⟩
  · simp
  · intro hconn
    rw [RediStore.Get_live _ _ _ (Conn.Err_eq_none hconn)]
  · intro h
    have h1 : (ss.store.Get srv (SESSION_PREFIX ++ (ss.fresh r name).ID)).1.1 = none := by
      show (ss.store.Get srv (SESSION_PREFIX ++ r.Header.Get SESSION_HEADER)).1.1 = none
      rw [h]
    rw [SessionStore.Load_none ss srv _ h1]
    show _ ∧ (ss.store.Get srv (SESSION_PREFIX ++ r.Header.Get SESSION_HEADER)).1.2 = none
    rw [h]
    simp
  · intro b h hd
    have h1 : (ss.store.Get srv (SESSION_PREFIX ++ (ss.fresh r name).ID)).1 =
        (some b, none) := h
    rw [SessionStore.Load_some ss srv _ b h1]
    simp [hd]

/-- C9 at concrete stores: an absent key gives a new session, the stored
session `sess_abc` gives `IsNew = false`, both without error. -/
theorem New_IsNew_rule_witness :
    ((liveSessions.New emptyServer abcRequest "s").1.1.IsNew = true ∧
     (liveSessions.New emptyServer abcRequest "s").1.2 = none) ∧
    ((liveSessions.New aliceServer abcRequest "s").1.1.IsNew = false ∧
     (liveSessions.New aliceServer abcRequest "s").1.2 = none) :=
  ⟨(New_IsNew_rule liveSessions emptyServer abcRequest "s").2.2.2.1 (by decide),
   (New_IsNew_rule liveSessions aliceServer abcRequest "s").2.2.2.2
     [117, 115, 101, 114, 0, 97, 108, 105, 99, 101, 0] (by decide) (by decide)⟩

/-! ## C7: a request without identifier -/

/-- C7 fails as stated: the request carries no identifier, the store holds a
well-formed entry under the bare prefix `sess_`, and `New` returns `IsNew = false`. -/
theorem bare_key_entry_not_new :
    bareRequest.Header.Get SESSION_HEADER = "" ∧
    (liveSessions.New bareKeyServer bareRequest "s").1.1.IsNew = false ∧
    (liveSessions.New bareKeyServer bareRequest "s").1.2 = none ∧
    (liveSessions.New bareKeyServer bareRequest "s").2.log = [.GET "sess_"] := by
  decide

/-- C7 (amended): for a request whose identifier header is empty or missing,
`New` looks up the bare prefix `sess_`; it returns `IsNew = true` whenever no
entry exists under that key, and more precisely `IsNew = false` only when the
lookup yields bytes that `Deserialize` accepts. -/
theorem New_empty_header (ss : SessionStore) (srv : Server) (r : Request) (name : String)
    (hempty : r.Header.Get SESSION_HEADER = "") :
    (srv.db "sess_" = none → (ss.New srv r name).1.1.IsNew = true) ∧
    ((ss.New srv r name).1.1.IsNew = false ↔
      ∃ b, (ss.store.Get srv "sess_").1 = (some b, none) ∧
        (ss.store.serializer.Deserialize b (ss.fresh r name)).2 = none) := by
  have hkey : SESSION_PREFIX ++ (ss.fresh r name).ID = "sess_" := by
    show SESSION_PREFIX ++ r.Header.Get SESSION_HEADER = "sess_"
    rw [hempty]; rfl
  have hiff : (ss.New srv r name).1.1.IsNew = false ↔
      ∃ b, (ss.store.Get srv "sess_").1 = (some b, none) ∧
        (ss.store.serializer.Deserialize b (ss.fresh r name)).2 = none := by
    rw [SessionStore.New_eq]
    cases hg : (ss.store.Get srv "sess_").1.1 with
    | none =>
      rw [SessionStore.Load_none ss srv _ (by rw [hkey]; exact hg)]
      constructor
      · intro h; simp at h
      · rintro ⟨b, hb, _⟩
        rw [hb] at hg; simp at hg
    | some b =>
      have hb := RediStore.Get_some_no_error _ _ _ _ hg
      rw [SessionStore.Load_some ss srv _ b (by rw [hkey]; exact hb)]
      constructor
      · intro h
        refine ⟨b, hb, ?_⟩
        simpa using h
      · rintro ⟨b', hb', hd⟩
        rw [hb] at hb'
        simp only [Prod.mk.injEq, Option.some.injEq, and_true] at hb'
        subst hb'
        simp [hd]
  refine ⟨?_, hiff⟩
  intro hdb
  cases hn : (ss.New srv r name).1.1.IsNew with
  | true => rfl
  | false =>
    obtain ⟨b, hb, _⟩ := hiff.mp hn
    exfalso
    cases hc : ss.store.Pool.Get with
    | live =>
      rw [RediStore.Get_live _ srv "sess_" hc] at hb
      simp [hdb] at hb
    | errorConn e =>
      unfold RediStore.Get at hb
      rw [hc] at hb
      by_cases he : e = .ErrNil <;> simp [Conn.Do, redis.Bytes, he] at hb

/-- C7 (amended) at a concrete store: no header, empty keyspace, new session. -/
theorem New_empty_header_witness :
    bareRequest.Header.Get SESSION_HEADER = "" ∧ emptyServer.db "sess_" = none ∧
    (liveSessions.New emptyServer bareRequest "s").1.1.IsNew = true :=
  ⟨by decide, by decide,
   (New_empty_header liveSessions emptyServer bareRequest "s" (by decide)).1 (by decide)⟩

/-! ## C8: stored bytes that fail to deserialize -/

/-- C8 fails as stated: `sess_abc` holds bytes the serializer rejects; `New`
returns the serializer's error, and the returned session has `IsNew = true`. -/
theorem corrupt_entry_is_new :
    (corruptServer.db ("sess_" ++ abcRequest.Header.Get SESSION_HEADER)).isSome = true ∧
    (liveSessions.store.serializer.Deserialize [7, 7]
      (liveSessions.fresh abcRequest "s")).2 = some (.other "corrupt session data") ∧
    (liveSessions.New corruptServer abcRequest "s").1.2 =
      some (.other "corrupt session data") ∧
    (liveSessions.New corruptServer abcRequest "s").1.1.IsNew = true := by
  decide

/-- C8 (amended): when an entry exists under `"sess_" ++ id` (`Get` yields its
bytes) and `Deserialize` fails on those bytes with error `e`, `New` returns `e`
to the caller and the returned session has `IsNew = true`. -/
theorem New_deserialize_failure (ss : SessionStore) (srv : Server) (r : Request)
    (name : String) (b : Bytes) (e : Error)
    (hget : (ss.store.Get srv (SESSION_PREFIX ++ r.Header.Get SESSION_HEADER)).1 =
      (some b, none))
    (hdes : (ss.store.serializer.Deserialize b (ss.fresh r name)).2 = some e) :
    (ss.New srv r name).1.2 = some e ∧ (ss.New srv r name).1.1.IsNew = true := by
  have h1 : (ss.store.Get srv (SESSION_PREFIX ++ (ss.fresh r name).ID)).1 =
      (some b, none) := hget
  rw [SessionStore.New_eq, SessionStore.Load_some ss srv _ b h1]
  simp [hdes]

/-- C8 (amended) at a concrete store: the rejected bytes under `sess_abc`. -/
theorem New_deserialize_failure_witness :
    (liveSessions.New corruptServer abcRequest "s").1.2 =
      some (.other "corrupt session data") ∧
    (liveSessions.New corruptServer abcRequest "s").1.1.IsNew = true :=
  New_deserialize_failure liveSessions corruptServer abcRequest "s" [7, 7]
    (.other "corrupt session data") (by decide) (by decide)

/-! ## Identifier generation -/

theorem randomBytes_length (rand : List Byte) (size : Nat) :
    (randomBytes rand size).length = size := by
  simp [randomBytes]
  omega

theorem encodeChar_mem (b : Nat) : encodeChar b ∈ encodeStd := by
  unfold encodeChar
  have h : b % 32 < 32 := Nat.mod_lt _ (by norm_num)
  generalize b % 32 = i at h
  interval_cases i <;> decide

theorem encodeStd_chars :
    ∀ c ∈ encodeStd, (('A' ≤ c ∧ c ≤ 'Z') ∨ ('2' ≤ c ∧ c ≤ '7')) ∧ c ≠ '=' := by
  decide

/-- The encoding of twelve bytes is twenty alphabet characters followed by four `=`. -/
theorem Encode_twelve (bs : List Byte) (h : bs.length = 12) :
    ((Encode bs).take 20).length = 20 ∧
    (∀ c ∈ (Encode bs).take 20, c ∈ encodeStd) ∧
    Encode bs = (Encode bs).take 20 ++ ['=', '=', '=', '='] := by
  rcases bs with _ | ⟨b0, _ | ⟨b1, _ | ⟨b2, _ | ⟨b3, _ | ⟨b4, _ | ⟨b5, _ | ⟨b6, _ | ⟨b7,
    _ | ⟨b8, _ | ⟨b9, _ | ⟨b10, _ | ⟨b11, _ | ⟨b12, t⟩⟩⟩⟩⟩⟩⟩⟩⟩⟩⟩⟩⟩
  all_goals first
    | (exfalso; simp only [List.length_cons, List.length_nil] at h; omega)
    | skip
  refine ⟨rfl, ?_, rfl⟩
  simp [Encode, encodeChar_mem]

/-- Trimming `=` from the right of a text without `=` followed by four `=`. -/
theorem TrimRight_padding (cs : List Char) (h : ∀ c ∈ cs, c ≠ '=') :
    TrimRight (String.mk (cs ++ ['=', '=', '=', '='])) "=" = String.mk cs := by
  unfold TrimRight
  congr 1
  have hd : (cs.reverse).dropWhile (fun c => decide (c ∈ "=".data)) = cs.reverse := by
    cases hr : cs.reverse with
    | nil => rfl
    | cons x xs =>
      have hx : x ∈ cs := by
        have : x ∈ cs.reverse := by rw [hr]; simp
        simpa using this
      have hne := h x hx
      have hp : ¬ (decide (x ∈ "=".data) = true) := by
        intro hm
        have : x = '=' := by simpa using hm
        exact hne this
      exact List.dropWhile_cons_of_neg hp
  have hrev : (cs ++ ['=', '=', '=', '=']).reverse = '=' :: '=' :: '=' :: '=' :: cs.reverse := by
    simp
  show ((cs ++ ['=', '=', '=', '=']).reverse.dropWhile
    (fun c => decide (c ∈ "=".data))).reverse = cs
  rw [hrev]
  have hp : decide ('=' ∈ "=".data) = true := by decide
  simp only [List.dropWhile, hp]
  rw [hd, List.reverse_reverse]

/-- The encoder on the test vectors of RFC 4648. -/
theorem Encode_rfc4648 :
    EncodeToString (asciiBytes "") = "" ∧
    EncodeToString (asciiBytes "f") = "MY======" ∧
    EncodeToString (asciiBytes "fo") = "MZXQ====" ∧
    EncodeToString (asciiBytes "foo") = "MZXW6===" ∧
    EncodeToString (asciiBytes "foob") = "MZXW6YQ=" ∧
    EncodeToString (asciiBytes "fooba") = "MZXW6YTB" ∧
    EncodeToString (asciiBytes "foobar") = "MZXW6YTBOI======" ∧
    TrimRight "MZXW6YTBOI======" "=" = "MZXW6YTBOI" := by
  decide

/-- The identifier generated from any delivery of the random source. -/
theorem generated_identifier (rand : List Byte) :
    EncodeToString (randomBytes rand 12) =
      TrimRight (EncodeToString (randomBytes rand 12)) "=" ++ "====" ∧
    (TrimRight (EncodeToString (randomBytes rand 12)) "=").length = 20 ∧
    (∀ c ∈ (TrimRight (EncodeToString (randomBytes rand 12)) "=").data,
      (('A' ≤ c ∧ c ≤ 'Z') ∨ ('2' ≤ c ∧ c ≤ '7')) ∧ c ≠ '=') := by
  obtain ⟨hlen, hmem, heq⟩ := Encode_twelve _ (randomBytes_length rand 12)
  have hne : ∀ c ∈ (Encode (randomBytes rand 12)).take 20, c ≠ '=' :=
    fun c hc => (encodeStd_chars c (hmem c hc)).2
  have htrim : TrimRight (EncodeToString (randomBytes rand 12)) "=" =
      String.mk ((Encode (randomBytes rand 12)).take 20) := by
    have hpad := TrimRight_padding _ hne
    rw [← heq] at hpad
    exact hpad
  rw [htrim]
  refine ⟨?_, hlen, fun c hc => encodeStd_chars c (hmem c hc)⟩
  unfold EncodeToString
  conv_lhs => rw [heq]
  rfl

/-! ## Save with a non-negative max-age -/

theorem SessionStore.Save_session (ss : SessionStore) (rand : List Byte) (srv : Server)
    (r : Request) (w : Header) (S : Session) (hage : 0 ≤ S.Options.MaxAge) :
    (ss.Save rand srv r w S).1.1 = SessionStore.issued rand S := by
  have hn : ¬ S.Options.MaxAge < 0 := by omega
  unfold SessionStore.Save
  rw [if_neg hn]
  show (match ss.store.serializer.Serialize (SessionStore.issued rand S) with
    | .error err => ((SessionStore.issued rand S, w, some err), srv)
    | .ok data =>
      match ss.store.SetEx srv (SESSION_PREFIX ++ (SessionStore.issued rand S).ID) data
          (SessionStore.issued rand S).Options.MaxAge with
      | (some err, srv') => ((SessionStore.issued rand S, w, some err), srv')
      | (none, srv') =>
        ((SessionStore.issued rand S,
          w.Set SESSION_HEADER (SessionStore.issued rand S).ID, none), srv')).1.1 = _
  cases ss.store.serializer.Serialize (SessionStore.issued rand S) with
  | error err => rfl
  | ok data =>
    simp only
    rcases ss.store.SetEx srv (SESSION_PREFIX ++ (SessionStore.issued rand S).ID) data
      (SessionStore.issued rand S).Options.MaxAge with ⟨_ | err, srv'⟩ <;> rfl

theorem SessionStore.issued_Options (rand : List Byte) (S : Session) :
    (SessionStore.issued rand S).Options = S.Options := by
  unfold SessionStore.issued
  split <;> rfl

theorem SessionStore.issued_Values (rand : List Byte) (S : Session) :
    (SessionStore.issued rand S).Values = S.Values := by
  unfold SessionStore.issued
  split <;> rfl

/-- A successful `Save` with a non-negative max-age: the session was
serialized, written by `SetEx` under the prefixed key, and the identifier was
put into the response header. -/
theorem SessionStore.Save_ok (ss : SessionStore) (rand : List Byte) (srv : Server)
    (r : Request) (w : Header) (S : Session) (hage : 0 ≤ S.Options.MaxAge)
    (hsave : (ss.Save rand srv r w S).1.2.2 = none) :
    ∃ d, ss.store.serializer.Serialize (SessionStore.issued rand S) = .ok d ∧
      (ss.store.SetEx srv (SESSION_PREFIX ++ (SessionStore.issued rand S).ID) d
        S.Options.MaxAge).1 = none ∧
      ss.Save rand srv r w S =
        ((SessionStore.issued rand S,
          w.Set SESSION_HEADER (SessionStore.issued rand S).ID, none),
         (ss.store.SetEx srv (SESSION_PREFIX ++ (SessionStore.issued rand S).ID) d
           S.Options.MaxAge).2) := by
  have hn : ¬ S.Options.MaxAge < 0 := by omega
  have hS : ss.Save rand srv r w S =
      (match ss.store.serializer.Serialize (SessionStore.issued rand S) with
      | .error err => ((SessionStore.issued rand S, w, some err), srv)
      | .ok data =>
        match ss.store.SetEx srv (SESSION_PREFIX ++ (SessionStore.issued rand S).ID) data
            (SessionStore.issued rand S).Options.MaxAge with
        | (some err, srv') => ((SessionStore.issued rand S, w, some err), srv')
        | (none, srv') =>
          ((SessionStore.issued rand S,
            w.Set SESSION_HEADER (SessionStore.issued rand S).ID, none), srv')) := by
    unfold SessionStore.Save
    rw [if_neg hn]
    rfl
  rw [hS] at hsave ⊢
  cases hser : ss.store.serializer.Serialize (SessionStore.issued rand S) with
  | error err => rw [hser] at hsave; simp at hsave
  | ok data =>
    rw [hser] at hsave
    simp only at hsave ⊢
    rw [SessionStore.issued_Options] at hsave ⊢
    rcases hx : ss.store.SetEx srv (SESSION_PREFIX ++ (SessionStore.issued rand S).ID) data
      S.Options.MaxAge with ⟨_ | err, srv'⟩
    · exact ⟨data, rfl, by rw [hx], by rw [hx]⟩
    · rw [hx] at hsave; simp at hsave

/-- What a successful `Save` with a non-negative max-age leaves behind: one
`SETEX` on the prefixed key, the entry stored under it, the identifier in the
response header, and a connection that reports no error. -/
theorem SessionStore.Save_ok_effects (ss : SessionStore) (rand : List Byte) (srv : Server)
    (r : Request) (w : Header) (S : Session) (hage : 0 ≤ S.Options.MaxAge)
    (hsave : (ss.Save rand srv r w S).1.2.2 = none) :
    ∃ d ttl, ss.store.serializer.Serialize (SessionStore.issued rand S) = .ok d ∧
      ss.store.Pool.Get = .live ∧
      (ss.Save rand srv r w S).1.1 = SessionStore.issued rand S ∧
      (ss.Save rand srv r w S).1.2.1.Get SESSION_HEADER = (SessionStore.issued rand S).ID ∧
      (ss.Save rand srv r w S).2.log =
        srv.log ++ [.SETEX (SESSION_PREFIX ++ (SessionStore.issued rand S).ID) ttl d] ∧
      (ss.Save rand srv r w S).2.db (SESSION_PREFIX ++ (SessionStore.issued rand S).ID) =
        some ⟨d, some ttl⟩ := by
  obtain ⟨d, hser, hset, heq⟩ := SessionStore.Save_ok ss rand srv r w S hage hsave
  obtain ⟨hl, hpos⟩ := RediStore.SetEx_ok _ _ _ _ _ hset
  refine ⟨d, (if S.Options.MaxAge = 0 then ss.store.DefaultMaxAge else S.Options.MaxAge),
    hser, hl, ?_, ?_, ?_, ?_⟩
  · rw [heq]
  · rw [heq]; simp [Header.Get, Header.Set]
  · rw [heq, RediStore.SetEx_live _ _ _ _ _ hl, Server.exec_SETEX_pos _ _ _ _ hpos]
  · rw [heq, RediStore.SetEx_live _ _ _ _ _ hl, Server.exec_SETEX_pos _ _ _ _ hpos]
    simp [Server.put]

/-! ## C3: identifier issuance -/

/-- C3: for a session with an empty identifier and a non-negative max-age, and
for whatever twelve bytes the random source delivers, a successful `Save`
assigns as identifier the standard base32 encoding of those bytes with the
trailing `=` removed; the identifier has exactly 20 characters, all of them in
A-Z or 2-7 and none `=`, it is the suffix of the key written and the value of
the `X-Core-Session` response header. A session with a non-empty identifier
keeps it. -/
theorem Save_issues_identifier (ss : SessionStore) (rand : List Byte) (srv : Server)
    (r : Request) (w : Header) (S : Session) :
    (S.ID = "" → 0 ≤ S.Options.MaxAge → (ss.Save rand srv r w S).1.2.2 = none →
      (randomBytes rand 12).length = 12 ∧
      (rand.length = 12 → randomBytes rand 12 = rand) ∧
      (ss.Save rand srv r w S).1.1.ID =
        TrimRight (EncodeToString (randomBytes rand 12)) "=" ∧
      EncodeToString (randomBytes rand 12) = (ss.Save rand srv r w S).1.1.ID ++ "====" ∧
      (ss.Save rand srv r w S).1.1.ID ≠ "" ∧
      (ss.Save rand srv r w S).1.1.ID.length = 20 ∧
      (∀ c ∈ (ss.Save rand srv r w S).1.1.ID.data,
        (('A' ≤ c ∧ c ≤ 'Z') ∨ ('2' ≤ c ∧ c ≤ '7')) ∧ c ≠ '=') ∧
      (∃ d ttl,
        (ss.Save rand srv r w S).2.log =
          srv.log ++ [.SETEX (SESSION_PREFIX ++ (ss.Save rand srv r w S).1.1.ID) ttl d] ∧
        (ss.Save rand srv r w S).2.db (SESSION_PREFIX ++ (ss.Save rand srv r w S).1.1.ID) =
          some ⟨d, some ttl⟩) ∧
      (ss.Save rand srv r w S).1.2.1.Get SESSION_HEADER = (ss.Save rand srv r w S).1.1.ID) ∧
    (S.ID ≠ "" → (ss.Save rand srv r w S).1.1.ID = S.ID) := by
  constructor
  · intro hid hage hsave
    obtain ⟨d, ttl, _, _, hsess, hhdr, hlog, hdb⟩ :=
      SessionStore.Save_ok_effects ss rand srv r w S hage hsave
    obtain ⟨henc, hlen, hchars⟩ := generated_identifier rand
    have hissued : (SessionStore.issued rand S).ID =
        TrimRight (EncodeToString (randomBytes rand 12)) "=" := by
      unfold SessionStore.issued
      rw [if_pos hid]
    rw [hsess, hhdr]
    rw [hissued] at hlog hdb ⊢
    refine ⟨randomBytes_length rand 12, ?_, rfl, henc, ?_, hlen, hchars, ⟨d, ttl, hlog, hdb⟩, rfl⟩
    · intro h12
      unfold randomBytes
      rw [h12]
      simp [List.take_of_length_le (le_of_eq h12)]
    · intro h0
      rw [h0] at hlen
      simp at hlen
  · intro hid
    by_cases hage : S.Options.MaxAge < 0
    · unfold SessionStore.Save
      rw [if_pos hage]
      rcases ss.store.Del srv S.ID with ⟨_ | err, srv'⟩ <;> rfl
    · rw [SessionStore.Save_session ss rand srv r w S (by omega)]
      unfold SessionStore.issued
      rw [if_neg hid]

/-- C3 at a concrete store: the bytes 1 to 12 give the identifier
`AEBAGBAFAYDQQCIKBMGA`, and the session `abc` keeps its identifier. -/
theorem Save_issues_identifier_witness :
    aliceSession.ID = "" ∧ 0 ≤ aliceSession.Options.MaxAge ∧
    (liveSessions.Save [1, 2, 3, 4, 5, 6, 7, 8, 9, 10, 11, 12] emptyServer bareRequest
      noHeader aliceSession).1.2.2 = none ∧
    (liveSessions.Save [1, 2, 3, 4, 5, 6, 7, 8, 9, 10, 11, 12] emptyServer bareRequest
      noHeader aliceSession).1.1.ID.length = 20 ∧
    (liveSessions.Save [1, 2, 3, 4, 5, 6, 7, 8, 9, 10, 11, 12] emptyServer bareRequest
      noHeader aliceSession).1.1.ID = "AEBAGBAFAYDQQCIKBMGA" ∧
    (liveSessions.Save [] aliceServer bareRequest noHeader endedSession).1.1.ID = "abc" :=
  ⟨by decide, by decide, by decide,
   ((Save_issues_identifier liveSessions [1, 2, 3, 4, 5, 6, 7, 8, 9, 10, 11, 12] emptyServer
      bareRequest noHeader aliceSession).1 (by decide) (by decide) (by decide)).2.2.2.2.2.1,
   by decide,
   (Save_issues_identifier liveSessions [] aliceServer bareRequest noHeader
      endedSession).2 (by decide)⟩

/-! ## C2: Save then Load -/

/-- C2: for a session `S` with non-negative max-age, when `Save` succeeds and
the serializer gives back `S`'s value mapping without error from the bytes it
produced for `S`, a `New` on a request carrying the identifier that `Save`
put into the `X-Core-Session` header reads the key `Save` wrote
(`"sess_" ++ identifier`), returns no error, reports `IsNew = false` and yields
a value mapping equal to `S`'s. -/
theorem Save_Load_roundtrip (ss : SessionStore) (rand : List Byte) (srv : Server)
    (r : Request) (w : Header) (S : Session) (r' : Request) (name : String)
    (hage : 0 ≤ S.Options.MaxAge)
    (hsave : (ss.Save rand srv r w S).1.2.2 = none)
    (hser : ∀ d, ss.store.serializer.Serialize (ss.Save rand srv r w S).1.1 = .ok d →
      ∀ t, (ss.store.serializer.Deserialize d t).2 = none ∧
        (ss.store.serializer.Deserialize d t).1.Values = S.Values)
    (hid : r'.Header.Get SESSION_HEADER =
      (ss.Save rand srv r w S).1.2.1.Get SESSION_HEADER) :
    (∃ d ttl, (ss.Save rand srv r w S).2.log =
      srv.log ++ [.SETEX (SESSION_PREFIX ++ r'.Header.Get SESSION_HEADER) ttl d]) ∧
    (ss.New (ss.Save rand srv r w S).2 r' name).2.log =
      (ss.Save rand srv r w S).2.log ++
        [.GET (SESSION_PREFIX ++ r'.Header.Get SESSION_HEADER)] ∧
    (ss.New (ss.Save rand srv r w S).2 r' name).1.2 = none ∧
    (ss.New (ss.Save rand srv r w S).2 r' name).1.1.IsNew = false ∧
    (ss.New (ss.Save rand srv r w S).2 r' name).1.1.Values = S.Values := by
  obtain ⟨d, ttl, hd, hl, hsess, hhdr, hlog, hdb⟩ :=
    SessionStore.Save_ok_effects ss rand srv r w S hage hsave
  rw [hsess] at hser
  obtain ⟨hde, hdv⟩ := hser d hd (ss.fresh r' name)
  rw [hhdr] at hid
  have hget : ss.store.Get (ss.Save rand srv r w S).2
      (SESSION_PREFIX ++ (ss.fresh r' name).ID) =
      ((some d, none),
       { (ss.Save rand srv r w S).2 with
         log := (ss.Save rand srv r w S).2.log ++
           [.GET (SESSION_PREFIX ++ r'.Header.Get SESSION_HEADER)] }) := by
    show ss.store.Get _ (SESSION_PREFIX ++ r'.Header.Get SESSION_HEADER) = _
    rw [RediStore.Get_live _ _ _ hl, hid, hdb]
    rfl
  have hload := SessionStore.Load_some ss (ss.Save rand srv r w S).2 (ss.fresh r' name) d
    (by rw [hget])
  rw [SessionStore.New_eq, hload, hget]
  refine ⟨⟨d, ttl, ?_⟩, rfl, hde, ?_, hdv⟩
  · rw [hlog, hid]
  · simp [hde]

/-- C2 at a concrete store: `user=alice` saved with max-age 1200 under the
identifier generated from the bytes 1 to 12, then loaded through a request
presenting that identifier. -/
theorem Save_Load_roundtrip_witness :
    (liveSessions.New
      (liveSessions.Save [1, 2, 3, 4, 5, 6, 7, 8, 9, 10, 11, 12] emptyServer bareRequest
        noHeader aliceSession).2 issuedRequest "s").1.2 = none ∧
    (liveSessions.New
      (liveSessions.Save [1, 2, 3, 4, 5, 6, 7, 8, 9, 10, 11, 12] emptyServer bareRequest
        noHeader aliceSession).2 issuedRequest "s").1.1.IsNew = false ∧
    (liveSessions.New
      (liveSessions.Save [1, 2, 3, 4, 5, 6, 7, 8, 9, 10, 11, 12] emptyServer bareRequest
        noHeader aliceSession).2 issuedRequest "s").1.1.Values = [("user", "alice")] :=
  (Save_Load_roundtrip liveSessions [1, 2, 3, 4, 5, 6, 7, 8, 9, 10, 11, 12] emptyServer
    bareRequest noHeader aliceSession issuedRequest "s" (by decide) (by decide)
    (by
      intro d hd t
      have hd' : d = [117, 115, 101, 114, 0, 97, 108, 105, 99, 101, 0] := by
        have : (Except.ok [117, 115, 101, 114, 0, 97, 108, 105, 99, 101, 0] :
            Except Error Bytes) = .ok d := hd
        injection this with h
        exact h.symm
      subst hd'
      exact ⟨rfl, rfl⟩)
    (by decide)).2.2

/-! ## C10: construction and the liveness probe -/

/-- The constructor returns the error of `ping`, which is the error of PING. -/
theorem NewRediStoreWithPool_error (gob : SessionSerializer) (pool : Pool)
    (keyPairs : List Bytes) (srv : Server) :
    (NewRediStoreWithPool gob pool keyPairs srv).1.2 = (pool.Get.Do srv .PING).1.2 := by
  unfold NewRediStoreWithPool RediStore.ping
  simp only
  rcases pool.Get.Do srv .PING with ⟨⟨data, err⟩, srv'⟩
  simp only
  split <;> rename_i h
  · rfl
  · simp only [ne_eq, not_or, not_not] at h
    simp [h.1]

/-- A failed dial makes PING fail with the dial error. -/
theorem Pool.Get_Do_dial_error (p : Pool) (srv : Server) (cmd : Cmd) (e : Error)
    (h : p.Dial = .error e) : (p.Get.Do srv cmd).1.2 = some e := by
  simp [Pool.Get, h, Conn.Do]

/-- C10 fails as stated: the service answers PING with `QUEUED` and no error,
so the probe does not obtain PONG (`ping` reports `false`), yet
`NewRediStoreWithPool`, `NewRediStore`, `NewRediStoreWithDB` and
`NewSessionStore` all return a nil error, the last one with a session store. -/
theorem construction_accepts_non_pong :
    (liveStore.ping queuedServer).1 = (false, none) ∧
    (NewRediStoreWithPool textSerializer livePool [] queuedServer).1.2 = none ∧
    (NewRediStore textSerializer openNet 10 "tcp" ":6379" "" [] queuedServer).1.2 = none ∧
    (NewRediStoreWithDB textSerializer openNet 10 "tcp" ":6379" "" "1" []
      queuedServer).1.2 = none ∧
    (NewSessionStore textSerializer openNet 10 "tcp" ":6379" "" [] queuedServer).1.2 = none ∧
    (NewSessionStore textSerializer openNet 10 "tcp" ":6379" "" []
      queuedServer).1.1.isSome = true := by
  decide

/-- C10 (amended): for every pool on which PING returns an error `e`,
`NewRediStoreWithPool` returns `e`, and so do `NewRediStore` and
`NewRediStoreWithDB` for the pools they build; `NewSessionStore` then returns
`e` together with no session store. A service that cannot be dialled is such a
case: the dial error is what every constructor returns. -/
theorem construction_reports_ping_error (gob : SessionSerializer) (srv : Server) (e : Error) :
    (∀ pool keyPairs, (pool.Get.Do srv .PING).1.2 = some e →
      (NewRediStoreWithPool gob pool keyPairs srv).1.2 = some e) ∧
    (∀ net size network address password keyPairs,
      ((Pool.Get { MaxIdle := size, IdleTimeout := 240,
                   Dial := dial net network address password }).Do srv .PING).1.2 = some e →
      (NewRediStore gob net size network address password keyPairs srv).1.2 = some e ∧
      (NewSessionStore gob net size network address password keyPairs srv).1 =
        (none, some e)) ∧
    (∀ net size network address password DB keyPairs,
      ((Pool.Get { MaxIdle := size, IdleTimeout := 240,
                   Dial := dialWithDB net network address password DB }).Do
        srv .PING).1.2 = some e →
      (NewRediStoreWithDB gob net size network address password DB keyPairs srv).1.2 =
        some e) ∧
    (∀ net size network address password DB keyPairs, net.Dial network address = some e →
      (NewRediStore gob net size network address password keyPairs srv).1.2 = some e ∧
      (NewRediStoreWithDB gob net size network address password DB keyPairs srv).1.2 =
        some e ∧
      (NewSessionStore gob net size network address password keyPairs srv).1 =
        (none, some e)) := by
  have hstore : ∀ net size network address password keyPairs,
      (NewRediStore gob net size network address password keyPairs srv).1.2 = some e →
      (NewSessionStore gob net size network address password keyPairs srv).1 =
        (none, some e) := by
    intro net size network address password keyPairs h
    unfold NewSessionStore
    rcases hr : NewRediStore gob net size network address password keyPairs srv with
      ⟨⟨store, err⟩, srv'⟩
    rw [hr] at h
    simp only at h
    subst h
    rfl
  have hdial : ∀ net network address password, net.Dial network address = some e →
      dial net network address password = .error e := by
    intro net network address password h
    simp [dial, h]
  refine ⟨?_, ?_, ?_, ?_⟩
  · intro pool keyPairs h
    rw [NewRediStoreWithPool_error, h]
  · intro net size network address password keyPairs h
    have h1 : (NewRediStore gob net size network address password keyPairs srv).1.2 =
        some e := by
      unfold NewRediStore
      rw [NewRediStoreWithPool_error, h]
    exact ⟨h1, hstore _ _ _ _ _ _ h1⟩
  · intro net size network address password DB keyPairs h
    unfold NewRediStoreWithDB
    rw [NewRediStoreWithPool_error, h]
  · intro net size network address password DB keyPairs h
    have hd := hdial net network address password h
    have h1 : (NewRediStore gob net size network address password keyPairs srv).1.2 =
        some e := by
      unfold NewRediStore
      rw [NewRediStoreWithPool_error]
      exact Pool.Get_Do_dial_error _ _ _ _ hd
    refine ⟨h1, ?_, hstore _ _ _ _ _ _ h1⟩
    unfold NewRediStoreWithDB
    rw [NewRediStoreWithPool_error]
    apply Pool.Get_Do_dial_error
    simp [dialWithDB, hd]

/-- C10 (amended) at a concrete service: the endpoint refuses the connection,
and `NewSessionStore` returns that error with no session store. -/
theorem construction_reports_ping_error_witness :
    (NewRediStoreWithPool textSerializer deadPool [] emptyServer).1.2 =
      some (.other "dial tcp: connection refused") ∧
    (NewSessionStore textSerializer closedNet 10 "tcp" ":6379" "" [] emptyServer).1 =
      (none, some (.other "dial tcp: connection refused")) :=
  ⟨(construction_reports_ping_error textSerializer emptyServer
      (.other "dial tcp: connection refused")).1 deadPool [] (by decide),
   ((construction_reports_ping_error textSerializer emptyServer
      (.other "dial tcp: connection refused")).2.2.2 closedNet 10 "tcp" ":6379" "" "0" []
      (by decide)).2.2⟩

end Redistore
